import Mathlib

/-!
# Verification of the audio-reactive effect engine

A shallow embedding, in Lean 4, of the audio analysis and effect lifecycle
core of the music visualizer:

* the Band/Energy Extractor and Beat Detector of `AudioEngine`
  (`computeBands`, `computeRmsFromFreq`, `computeInstantEnergy`,
  `AudioEngine.detectBeat`);
* the instrument heuristic classifier (`InstrumentClassifier`);
* the effect selector and hold-time switching of `SceneView`
  (`chooseEffect`, `updateFromAudio`);
* the effect lifecycle engine of `CrystalSphere` (`triggerEffect`,
  `clearAllEffects`, the per-family emit/update rules, and
  `setThemeByEnergyInstrument`).

Numbers are embedded as exact rationals (ℚ), with ℝ where the source uses
`Math.sqrt`/`Math.sin`/`Math.cos`.  JavaScript division is total and yields
the IEEE special values `NaN`/`±Infinity` on division by zero; the small
`JsNum`/`JsRNum` types below track those special values exactly where the
source can produce them.  `Math.random()` draws are supplied to each
emission helper as explicit arguments (an entropy oracle), since the
sampled values never influence the properties under study.  Material/
geometry state (colors, mesh radii, orientations) belongs to the opaque
render substrate and is not tracked; every field that drives the lifecycle
logic (life, delay, phase, opacity, scale, position, velocity, speed,
seed) is.
-/

namespace MusicViz

/-! ## JavaScript numeric semantics (division by zero, sqrt) -/

/-- A JavaScript number arising from rational arithmetic: either a finite
value or one of the IEEE special values produced by division by zero. -/
inductive JsNum where
  | num : ℚ → JsNum
  | nan : JsNum
  | pinf : JsNum
  | ninf : JsNum
deriving DecidableEq

/-- A JavaScript number over ℝ (needed once `Math.sqrt` is applied). -/
inductive JsRNum where
  | num : ℝ → JsRNum
  | nan : JsRNum
  | pinf : JsRNum
  | ninf : JsRNum

/-- JavaScript division of finite values: `0/0` is `NaN`, `x/0` for `x ≠ 0`
is a signed infinity, and otherwise the exact quotient. -/
def jsDiv (a b : ℚ) : JsNum :=
  if b = 0 then
    if a = 0 then .nan else if 0 < a then .pinf else .ninf
  else .num (a / b)

/-- `Math.sqrt` on a JavaScript number: `NaN` on negative inputs and `NaN`,
`+Infinity` on `+Infinity`. -/
noncomputable def jsSqrt : JsNum → JsRNum
  | .num q => if q < 0 then .nan else .num (Real.sqrt q)
  | .nan => .nan
  | .pinf => .pinf
  | .ninf => .nan

theorem jsNum_nan_ne_num (q : ℚ) : JsNum.nan ≠ JsNum.num q := by
  intro h; exact JsNum.noConfusion h

theorem jsRNum_nan_ne_num (x : ℝ) : JsRNum.nan ≠ JsRNum.num x := by
  intro h; exact JsRNum.noConfusion h

/-! ## Band/Energy Extractor (`AudioEngine` module functions)

The analyser delivers `Uint8Array` buffers: byte values in `0..255`.  We
embed a buffer as a `List ℚ` of its byte values. -/

/-- Embedding of `computeRmsFromFreq`: normalize each byte to `0..1`,
accumulate squares, and return `Math.sqrt(sumSquares / n)`.  For `n = 0`
the source divides `0` by `0`, so the JS result is `NaN`. -/
noncomputable def computeRmsFromFreq (freq : List ℚ) : JsRNum :=
  let sumSquares := (freq.map (fun b => (b / 255) * (b / 255))).sum
  jsSqrt (jsDiv sumSquares freq.length)

/-- Embedding of the module-private `average(arr, from, to)`: sum of the
bytes in `[lo, hi)` divided by `max 1 (hi − lo)` and normalized by 255.
All call sites use in-range indices, so indexing with default 0 is exact. -/
def bandAverage (arr : List ℚ) (lo hi : ℕ) : ℚ :=
  let len : ℚ := max 1 ((hi : ℚ) - (lo : ℚ))
  let sum := ((List.range (hi - lo)).map (fun j => arr.getD (lo + j) 0)).sum
  sum / len / 255

/-- Embedding of `computeBands`: split the bins into thirds
(`oneThird = ⌊n/3⌋`) and average each segment. -/
def computeBands (freq : List ℚ) : ℚ × ℚ × ℚ :=
  let n := freq.length
  let oneThird := n / 3
  (bandAverage freq 0 oneThird,
   bandAverage freq oneThird (2 * oneThird),
   bandAverage freq (2 * oneThird) n)

/-- Embedding of `computeInstantEnergy`: mean of squared zero-centered
time-domain samples (`((t − 128)/128)²`).  For an empty buffer the source
divides `0` by `0`, so the JS result is `NaN`. -/
def computeInstantEnergy (timeData : List ℚ) : JsNum :=
  let sum := (timeData.map (fun t => ((t - 128) / 128) * ((t - 128) / 128))).sum
  jsDiv sum timeData.length

/-- **C3, counterexample.**  The claim asserts that empty buffers yield 0
for *every* output.  On an empty frequency buffer `computeRmsFromFreq`
evaluates `Math.sqrt(0/0) = NaN`, and on an empty time-domain buffer
`computeInstantEnergy` evaluates `0/0 = NaN`; neither is the number 0. -/
theorem c3_empty_buffers_not_all_zero :
    computeRmsFromFreq [] = JsRNum.nan ∧
    computeInstantEnergy [] = JsNum.nan ∧
    JsRNum.nan ≠ JsRNum.num 0 ∧ JsNum.nan ≠ JsNum.num 0 := by
  refine ⟨?_, ?_, jsRNum_nan_ne_num 0, jsNum_nan_ne_num 0⟩
  · simp [computeRmsFromFreq, jsDiv, jsSqrt]
  · simp [computeInstantEnergy, jsDiv]

/-- **C3, amended.**  For empty (length-zero) buffers the extractor never
raises: `computeBands` yields 0 for each of low/mid/high (the inner
`average` guards its divisor with `max 1 _`), while `computeRmsFromFreq`
and `computeInstantEnergy` yield the non-numeric value `NaN` (not 0),
because they divide an empty sum by the zero length. -/
theorem c3_empty_buffers_behavior :
    computeBands [] = (0, 0, 0) ∧
    computeRmsFromFreq [] = JsRNum.nan ∧
    computeInstantEnergy [] = JsNum.nan := by
  refine ⟨?_, ?_, ?_⟩
  · simp [computeBands, bandAverage]
  · simp [computeRmsFromFreq, jsDiv, jsSqrt]
  · simp [computeInstantEnergy, jsDiv]

/-! ## Beat Detector (`AudioEngine.detectBeat`) -/

/-- The mutable `AudioEngine` state read and written by `detectBeat`:
`energyHistory`, `lastBeatAt` and `beatSensitivity`. -/
structure BeatState where
  energyHistory : List ℚ
  lastBeatAt : ℚ
  beatSensitivity : ℚ

/-- `maxEnergyHistory = 43` (≈0.7 s at ~60 fps). -/
def maxEnergyHistory : ℕ := 43

/-- The hard debounce interval: `minInterval = 0.12` seconds. -/
def minInterval : ℚ := 0.12

/-- Embedding of `setBeatSensitivity`: clamp the UI value to `[0, 1]`. -/
def setBeatSensitivity (st : BeatState) (s : ℚ) : BeatState :=
  { st with beatSensitivity := max 0 (min 1 s) }

/-- Embedding of the module-private `averageArray` (0 on an empty list). -/
def averageArray (arr : List ℚ) : ℚ :=
  if arr.length = 0 then 0 else arr.sum / arr.length

/-- The history update at the top of `detectBeat`: push the new sample,
then `shift()` (drop the oldest) once the bound is exceeded. -/
def pushEnergy (hist : List ℚ) (energy : ℚ) : List ℚ :=
  let h1 := hist ++ [energy]
  if maxEnergyHistory < h1.length then h1.drop 1 else h1

/-- The population standard deviation computed by `detectBeat`:
`Math.sqrt(Math.max(variance, 1e-8))` with
`variance = Σ (e − mean)² / n`. -/
noncomputable def beatStd (hist : List ℚ) : ℝ :=
  let mean := averageArray hist
  let variance := (hist.map (fun e => (e - mean) * (e - mean))).sum / hist.length
  Real.sqrt (max (variance : ℝ) 1e-8)

/-- The adaptive threshold of `detectBeat`: `mean + k·std` with
`k = 2.0 − 1.5·beatSensitivity`. -/
noncomputable def beatThreshold (hist : List ℚ) (sensitivity : ℚ) : ℝ :=
  let k : ℚ := 2 - 1.5 * sensitivity
  (averageArray hist : ℝ) + (k : ℝ) * beatStd hist

open Classical in
/-- Embedding of `AudioEngine.detectBeat`: push the sample into the
bounded history; report no beat while the history has fewer than 8
samples; otherwise fire exactly when `energy > threshold` and strictly
more than `minInterval` seconds have elapsed since `lastBeatAt`, in which
case `lastBeatAt` is set to `nowSec`. -/
noncomputable def detectBeat (st : BeatState) (energy nowSec : ℚ) :
    BeatState × Bool :=
  let hist := pushEnergy st.energyHistory energy
  if hist.length < 8 then ({ st with energyHistory := hist }, false)
  else
    let threshold := beatThreshold hist st.beatSensitivity
    let canTrigger := minInterval < nowSec - st.lastBeatAt
    if canTrigger ∧ threshold < (energy : ℝ) then
      ({ st with energyHistory := hist, lastBeatAt := nowSec }, true)
    else ({ st with energyHistory := hist }, false)

theorem pushEnergy_length_le (hist : List ℚ) (e : ℚ)
    (h : hist.length ≤ maxEnergyHistory) :
    (pushEnergy hist e).length ≤ maxEnergyHistory := by
  simp only [pushEnergy]
  split_ifs with hlt
  · simp only [List.length_drop, List.length_append, List.length_singleton]
    omega
  · simp only [List.length_append, List.length_singleton] at hlt ⊢
    omega

/-- **C1, amended.**  Per tick, `detectBeat` pushes the sample into the
bounded (≤43) history and fires exactly when the updated history holds at
least 8 samples, the energy strictly exceeds `mean + k·stddev`
(`stddev = sqrt(max(variance, 1e-8))`, `k = 2 − 1.5·sensitivity`), and
**strictly more than** 120 ms (not "at least") have elapsed since the
previous fired beat; on fire the timestamp is recorded.  The sensitivity
setter clamps to `[0, 1]`. -/
theorem c1_detectBeat_correct (st : BeatState) (energy nowSec : ℚ)
    (hlen : st.energyHistory.length ≤ maxEnergyHistory) :
    (detectBeat st energy nowSec).1.energyHistory = pushEnergy st.energyHistory energy ∧
    (pushEnergy st.energyHistory energy).length ≤ maxEnergyHistory ∧
    ((detectBeat st energy nowSec).2 = true ↔
      8 ≤ (pushEnergy st.energyHistory energy).length ∧
      beatThreshold (pushEnergy st.energyHistory energy) st.beatSensitivity < (energy : ℝ) ∧
      minInterval < nowSec - st.lastBeatAt) ∧
    (detectBeat st energy nowSec).1.lastBeatAt =
      (if (detectBeat st energy nowSec).2 = true then nowSec else st.lastBeatAt) ∧
    (∀ s : ℚ, 0 ≤ (setBeatSensitivity st s).beatSensitivity ∧
      (setBeatSensitivity st s).beatSensitivity ≤ 1) := by
  have hclamp : ∀ s : ℚ, 0 ≤ (setBeatSensitivity st s).beatSensitivity ∧
      (setBeatSensitivity st s).beatSensitivity ≤ 1 := by
    intro s
    constructor
    · exact le_max_left 0 (min 1 s)
    · simp [setBeatSensitivity]
  by_cases h8 : (pushEnergy st.energyHistory energy).length < 8
  · have hdb : detectBeat st energy nowSec =
        ({ st with energyHistory := pushEnergy st.energyHistory energy }, false) := by
      simp only [detectBeat]
      rw [if_pos h8]
    refine ⟨by rw [hdb], pushEnergy_length_le _ _ hlen, ?_, by rw [hdb]; simp, hclamp⟩
    rw [hdb]
    exact iff_of_false (by simp) (by rintro ⟨hge, -, -⟩; omega)
  · by_cases hb : minInterval < nowSec - st.lastBeatAt ∧
        beatThreshold (pushEnergy st.energyHistory energy) st.beatSensitivity < (energy : ℝ)
    · have hdb : detectBeat st energy nowSec =
          ({ st with energyHistory := pushEnergy st.energyHistory energy, lastBeatAt := nowSec }, true) := by
        simp only [detectBeat]
        rw [if_neg h8, if_pos hb]
      refine ⟨by rw [hdb], pushEnergy_length_le _ _ hlen, ?_, by rw [hdb]; simp, hclamp⟩
      rw [hdb]
      exact iff_of_true rfl ⟨by omega, hb.2, hb.1⟩
    · have hdb : detectBeat st energy nowSec =
          ({ st with energyHistory := pushEnergy st.energyHistory energy }, false) := by
        simp only [detectBeat]
        rw [if_neg h8, if_neg hb]
      refine ⟨by rw [hdb], pushEnergy_length_le _ _ hlen, ?_, by rw [hdb]; simp, hclamp⟩
      rw [hdb]
      exact iff_of_false (by simp) (by rintro ⟨-, ht, hc⟩; exact hb ⟨hc, ht⟩)

/-- Witness for `c1_detectBeat_correct` at a concrete state. -/
theorem c1_detectBeat_correct_witness :
    (([] : List ℚ).length ≤ maxEnergyHistory) ∧
    ((detectBeat ⟨[], 0, 3/5⟩ 1 1).1.energyHistory = pushEnergy [] 1 ∧
    (pushEnergy ([] : List ℚ) 1).length ≤ maxEnergyHistory ∧
    ((detectBeat ⟨[], 0, 3/5⟩ 1 1).2 = true ↔
      8 ≤ (pushEnergy ([] : List ℚ) 1).length ∧
      beatThreshold (pushEnergy [] 1) (3/5) < ((1 : ℚ) : ℝ) ∧
      minInterval < 1 - 0) ∧
    (detectBeat ⟨[], 0, 3/5⟩ 1 1).1.lastBeatAt =
      (if (detectBeat ⟨[], 0, 3/5⟩ 1 1).2 = true then 1 else 0) ∧
    (∀ s : ℚ, 0 ≤ (setBeatSensitivity ⟨[], 0, 3/5⟩ s).beatSensitivity ∧
      (setBeatSensitivity ⟨[], 0, 3/5⟩ s).beatSensitivity ≤ 1)) :=
  ⟨by decide, c1_detectBeat_correct ⟨[], 0, 3/5⟩ 1 1 (by decide)⟩

/-- The concrete state of the C1 counterexample: seven zero-energy
samples in the history, last beat at time 0, the default sensitivity. -/
def c1State : BeatState := ⟨[0, 0, 0, 0, 0, 0, 0], 0, 3/5⟩

/-- **C1, counterexample.**  At `nowSec = 0.12` with `lastBeatAt = 0`,
exactly 120 ms have elapsed ("at least 120 ms" holds), the updated history
holds 8 samples, and the energy strictly exceeds the threshold — yet
`detectBeat` reports **no** beat, because the code requires strictly more
than 120 ms (`nowSec - lastBeatAt > minInterval`). -/
theorem c1_counterexample :
    8 ≤ (pushEnergy c1State.energyHistory 1).length ∧
    beatThreshold (pushEnergy c1State.energyHistory 1) c1State.beatSensitivity < ((1 : ℚ) : ℝ) ∧
    (0.12 : ℚ) - c1State.lastBeatAt ≥ minInterval ∧
    (detectBeat c1State 1 0.12).2 = false := by
  have hhist : pushEnergy c1State.energyHistory 1 = [0, 0, 0, 0, 0, 0, 0, 1] := by
    decide
  have hsqrt : Real.sqrt (max ((7/64 : ℚ) : ℝ) 1e-8) < 35/44 := by
    rw [max_eq_left (by norm_num)]
    rw [Real.sqrt_lt' (by norm_num)]
    push_cast
    norm_num
  have hthr : beatThreshold (pushEnergy c1State.energyHistory 1) c1State.beatSensitivity
      < ((1 : ℚ) : ℝ) := by
    rw [hhist]
    have hval : beatThreshold [0, 0, 0, 0, 0, 0, 0, 1] c1State.beatSensitivity =
        ((1/8 : ℚ) : ℝ) + ((11/10 : ℚ) : ℝ) * Real.sqrt (max ((7/64 : ℚ) : ℝ) 1e-8) := by
      simp only [beatThreshold, beatStd]
      norm_num [averageArray, c1State]
    rw [hval]
    have h0 : (0 : ℝ) ≤ Real.sqrt (max ((7/64 : ℚ) : ℝ) 1e-8) := Real.sqrt_nonneg _
    push_cast
    push_cast at hsqrt
    nlinarith
  refine ⟨by rw [hhist]; decide, hthr, by norm_num [c1State, minInterval], ?_⟩
  have hcant : ¬ (minInterval < (0.12 : ℚ) - c1State.lastBeatAt ∧
      beatThreshold (pushEnergy c1State.energyHistory 1) c1State.beatSensitivity
        < ((1 : ℚ) : ℝ)) := by
    rintro ⟨hcan, -⟩
    rw [show c1State.lastBeatAt = 0 from rfl] at hcan
    norm_num [minInterval] at hcan
  simp only [detectBeat]
  rw [if_neg (by rw [hhist]; decide), if_neg hcant]

/-! ## Instrument heuristic classifier (`InstrumentClassifier`) -/

/-- The `Instrument` union type `'none' | 'drums' | 'bass' | 'guitar'`. -/
inductive Instrument where
  | none
  | drums
  | bass
  | guitar
deriving DecidableEq

/-- The private state of `InstrumentClassifier`. -/
structure ClassifierState where
  holdSeconds : ℚ
  current : Instrument
  lastSwitchAt : ℚ
deriving DecidableEq

/-- The constructor: `current = 'none'`, `lastSwitchAt = 0`. -/
def initClassifier (holdSeconds : ℚ) : ClassifierState :=
  ⟨holdSeconds, .none, 0⟩

/-- Embedding of `classifyInstant` (the source ends with two separate
branches that both return `'none'`; they are kept). -/
def classifyInstant (rms low mid high : ℚ) (beat : Bool) : Instrument :=
  if beat = true ∧ 0.5 < high ∧ mid < 0.6 then .drums
  else if 0.45 < low ∧ mid < 0.35 then .bass
  else if 0.5 < mid ∧ high < 0.5 then .guitar
  else if rms < 0.08 then .none
  else .none

/-- One audio frame as consumed by the classifier. -/
structure CFrame where
  t : ℚ
  rms : ℚ
  low : ℚ
  mid : ℚ
  high : ℚ
  beat : Bool

/-- Embedding of `InstrumentClassifier.update`: the proposed label is
accepted only if it differs from the current one and
`timeSec − lastSwitchAt ≥ holdSeconds`; the method returns the (possibly
updated) current label. -/
def classifierUpdate (st : ClassifierState) (timeSec rms low mid high : ℚ)
    (beat : Bool) : ClassifierState × Instrument :=
  let proposed := classifyInstant rms low mid high beat
  if proposed ≠ st.current ∧ st.holdSeconds ≤ timeSec - st.lastSwitchAt then
    ({ st with current := proposed, lastSwitchAt := timeSec }, proposed)
  else (st, st.current)

/-- The state transition of one classifier tick on a frame. -/
def classifierStep (st : ClassifierState) (f : CFrame) : ClassifierState :=
  (classifierUpdate st f.t f.rms f.low f.mid f.high f.beat).1

/-- Folding the classifier over a frame sequence. -/
def classifierRun (st : ClassifierState) (fs : List CFrame) : ClassifierState :=
  fs.foldl classifierStep st

/-! ## Generic hysteresis traces

Both the classifier (5 s hold) and the effect selector (3 s hold) guard a
switch by comparing the current time against a recorded last-switch
timestamp and record the time on every applied switch.  `holdSwitchTimes`
collects, along a run, the times of the steps that moved the timestamp. -/

/-- The times of the inputs whose step moved the recorded timestamp. -/
def holdSwitchTimes {S I : Type} (step : S → I → S) (last : S → ℚ)
    (tm : I → ℚ) : S → List I → List ℚ
  | _, [] => []
  | s, i :: is =>
    let s' := step s i
    let rest := holdSwitchTimes step last tm s' is
    if last s' ≠ last s then tm i :: rest else rest

theorem holdSwitchTimes_chain {S I : Type} (step : S → I → S) (last : S → ℚ)
    (tm : I → ℚ) (R : ℚ → ℚ → Prop) (P : S → Prop)
    (Hinv : ∀ s i, P s → P (step s i))
    (H : ∀ s i, P s → last (step s i) ≠ last s →
      last (step s i) = tm i ∧ R (last s) (tm i)) :
    ∀ (l : List I) (s : S), P s →
      List.Chain' R (last s :: holdSwitchTimes step last tm s l) := by
  intro l
  induction l with
  | nil => intro s _; simp [holdSwitchTimes]
  | cons i is ih =>
    intro s hs
    by_cases hc : last (step s i) = last s
    · rw [holdSwitchTimes, if_neg (not_not_intro hc)]
      have := ih (step s i) (Hinv s i hs)
      rwa [hc] at this
    · obtain ⟨he, hr⟩ := H s i hs hc
      rw [holdSwitchTimes, if_pos hc, List.chain'_cons]
      refine ⟨hr, ?_⟩
      have := ih (step s i) (Hinv s i hs)
      rwa [he] at this

theorem holdSwitchTimes_pairwise {S I : Type} (step : S → I → S)
    (last : S → ℚ) (tm : I → ℚ) (R : ℚ → ℚ → Prop) (P : S → Prop)
    (Ht : Transitive R)
    (Hinv : ∀ s i, P s → P (step s i))
    (H : ∀ s i, P s → last (step s i) ≠ last s →
      last (step s i) = tm i ∧ R (last s) (tm i))
    (l : List I) (s : S) (hs : P s) :
    List.Pairwise R (holdSwitchTimes step last tm s l) := by
  have hch := holdSwitchTimes_chain step last tm R P Hinv H l s hs
  haveI : IsTrans ℚ R := ⟨fun a b c hab hbc => Ht hab hbc⟩
  exact (List.pairwise_cons.mp (List.chain'_iff_pairwise.mp hch)).2

/-- The switch times of a classifier run. -/
def classifierSwitchTimes (st : ClassifierState) (fs : List CFrame) : List ℚ :=
  holdSwitchTimes classifierStep (fun s => s.lastSwitchAt) (fun f => f.t) st fs

/-- The acceptance condition of one classifier tick. -/
def classifierAccepts (st : ClassifierState) (f : CFrame) : Prop :=
  classifyInstant f.rms f.low f.mid f.high f.beat ≠ st.current ∧
    st.holdSeconds ≤ f.t - st.lastSwitchAt

instance (st : ClassifierState) (f : CFrame) : Decidable (classifierAccepts st f) := by
  unfold classifierAccepts
  infer_instance

theorem classifierStep_eq (st : ClassifierState) (f : CFrame) :
    classifierStep st f =
      if classifierAccepts st f then
        { st with current := classifyInstant f.rms f.low f.mid f.high f.beat,
                  lastSwitchAt := f.t }
      else st := by
  simp only [classifierStep, classifierUpdate, classifierAccepts]
  split_ifs with h <;> rfl

/-- **C6.**  Per tick, the classifier accepts a proposed label only when it
differs from the current label and ≥5 s have elapsed since the last
accepted switch, recording the switch time exactly then; consequently any
two accepted switch times in a run differ by at least 5 s — the label
changes at most once in any (half-open) 5-second window. -/
theorem c6_classifier_hold (st0 : ClassifierState) (fs : List CFrame)
    (hhold : st0.holdSeconds = 5) :
    List.Pairwise (fun a b => 5 ≤ b - a) (classifierSwitchTimes st0 fs) ∧
    (∀ (st : ClassifierState) (f : CFrame), st.holdSeconds = 5 →
      ((classifierStep st f).current ≠ st.current ↔
        (classifyInstant f.rms f.low f.mid f.high f.beat ≠ st.current ∧
          5 ≤ f.t - st.lastSwitchAt)) ∧
      (classifierStep st f).lastSwitchAt =
        (if classifierAccepts st f then f.t else st.lastSwitchAt) ∧
      (classifierUpdate st f.t f.rms f.low f.mid f.high f.beat).2 =
        (classifierStep st f).current) := by
  constructor
  · refine holdSwitchTimes_pairwise classifierStep (fun s => s.lastSwitchAt)
      (fun f => f.t) (fun a b => 5 ≤ b - a) (fun s => s.holdSeconds = 5)
      ?_ ?_ ?_ fs st0 hhold
    · intro a b c hab hbc
      linarith
    · intro s i hs
      rw [classifierStep_eq]
      split_ifs <;> simpa using hs
    · intro s i hs hne
      rw [classifierStep_eq] at hne ⊢
      by_cases ha : classifierAccepts s i
      · rw [if_pos ha]
        exact ⟨rfl, by have := ha.2; rw [hs] at this; linarith⟩
      · rw [if_neg ha] at hne
        exact absurd rfl hne
  · intro st f hs
    refine ⟨?_, ?_, ?_⟩
    · rw [classifierStep_eq]
      by_cases ha : classifierAccepts st f
      · rw [if_pos ha]
        exact iff_of_true (by simpa using ha.1) ⟨ha.1, by rw [← hs]; exact ha.2⟩
      · rw [if_neg ha]
        refine iff_of_false (by simp) ?_
        rintro ⟨h1, h2⟩
        exact ha ⟨h1, by rw [hs]; exact h2⟩
    · rw [classifierStep_eq]
      split_ifs <;> rfl
    · simp only [classifierStep, classifierUpdate]
      split_ifs <;> rfl

/-- Witness for `c6_classifier_hold` at a concrete run. -/
theorem c6_classifier_hold_witness :
    (initClassifier 5).holdSeconds = 5 ∧
    (List.Pairwise (fun a b => 5 ≤ b - a)
      (classifierSwitchTimes (initClassifier 5) [⟨6, 1, 1, 0, 0, false⟩]) ∧
    (∀ (st : ClassifierState) (f : CFrame), st.holdSeconds = 5 →
      ((classifierStep st f).current ≠ st.current ↔
        (classifyInstant f.rms f.low f.mid f.high f.beat ≠ st.current ∧
          5 ≤ f.t - st.lastSwitchAt)) ∧
      (classifierStep st f).lastSwitchAt =
        (if classifierAccepts st f then f.t else st.lastSwitchAt) ∧
      (classifierUpdate st f.t f.rms f.low f.mid f.high f.beat).2 =
        (classifierStep st f).current)) :=
  ⟨rfl, c6_classifier_hold (initClassifier 5) [⟨6, 1, 1, 0, 0, false⟩] rfl⟩

/-- **C10.**  A fresh classifier (`current = 'none'`, `lastSwitchAt = 0`,
hold 5 s) returns `'none'` on every call with `t < 5`, and a whole run of
such calls leaves the state fresh: no non-`'none'` label can be accepted
during the first 5 seconds. -/
theorem c10_fresh_classifier_none (fs : List CFrame)
    (hall : ∀ f ∈ fs, f.t < 5) :
    classifierRun (initClassifier 5) fs = initClassifier 5 ∧
    (∀ f : CFrame, f.t < 5 →
      (classifierUpdate (initClassifier 5) f.t f.rms f.low f.mid f.high f.beat).2 =
        Instrument.none) := by
  have hstep : ∀ f : CFrame, f.t < 5 → classifierStep (initClassifier 5) f = initClassifier 5 := by
    intro f hf
    rw [classifierStep_eq, if_neg]
    rintro ⟨-, h5⟩
    simp only [initClassifier] at h5
    linarith
  constructor
  · induction fs with
    | nil => rfl
    | cons f fs ih =>
      have hf := hall f (by simp)
      have : classifierRun (initClassifier 5) (f :: fs) = classifierRun (classifierStep (initClassifier 5) f) fs := rfl
      rw [this, hstep f hf]
      exact ih (fun g hg => hall g (by simp [hg]))
  · intro f hf
    have h1 : (classifierUpdate (initClassifier 5) f.t f.rms f.low f.mid f.high f.beat).1 = initClassifier 5 := hstep f hf
    have h2 : (classifierUpdate (initClassifier 5) f.t f.rms f.low f.mid f.high f.beat).2 =
        (classifierUpdate (initClassifier 5) f.t f.rms f.low f.mid f.high f.beat).1.current := by
      simp only [classifierUpdate]
      split_ifs <;> rfl
    rw [h2, h1]
    rfl

/-- Witness for `c10_fresh_classifier_none` at a concrete run. -/
theorem c10_fresh_classifier_none_witness :
    (∀ f ∈ [(⟨1, 1, 1, 1, 1, true⟩ : CFrame)], f.t < 5) ∧
    (classifierRun (initClassifier 5) [⟨1, 1, 1, 1, 1, true⟩] = initClassifier 5 ∧
    (∀ f : CFrame, f.t < 5 →
      (classifierUpdate (initClassifier 5) f.t f.rms f.low f.mid f.high f.beat).2 =
        Instrument.none)) :=
  ⟨by intro f hf; simp at hf; rw [hf]; norm_num,
   c10_fresh_classifier_none [⟨1, 1, 1, 1, 1, true⟩]
     (by intro f hf; simp at hf; rw [hf]; norm_num)⟩

/-! ## 3-vectors and the three.js quaternion application

`CrystalSphere.updateRift` calls `THREE.Vector3.applyAxisAngle(velocity,
rotationSpeed)`.  The library builds the quaternion
`(axis·sin(θ/2), cos(θ/2))` (`Quaternion.setFromAxisAngle`, which assumes
but does not enforce a normalized axis) and applies it with
`t = 2·(q_v × v)`, `v' = v + q_w·t + q_v × t`.  These two library
functions are modelled here from the three.js implementation (render
substrate, not under `src/`). -/

/-- A 3-vector over ℝ (`THREE.Vector3`). -/
structure Vec3 where
  x : ℝ
  y : ℝ
  z : ℝ

def Vec3.add (a b : Vec3) : Vec3 := ⟨a.x + b.x, a.y + b.y, a.z + b.z⟩

def Vec3.smul (c : ℝ) (a : Vec3) : Vec3 := ⟨c * a.x, c * a.y, c * a.z⟩

def Vec3.cross (a b : Vec3) : Vec3 :=
  ⟨a.y * b.z - a.z * b.y, a.z * b.x - a.x * b.z, a.x * b.y - a.y * b.x⟩

def Vec3.dot (a b : Vec3) : ℝ := a.x * b.x + a.y * b.y + a.z * b.z

def Vec3.normSq (a : Vec3) : ℝ := a.x * a.x + a.y * a.y + a.z * a.z

/-- three.js `Vector3.applyQuaternion` with quaternion vector part `qv`
and scalar part `qw`: a rotation for unit quaternions, but **not** an
isometry for non-unit ones. -/
def applyQuaternion (v : Vec3) (qv : Vec3) (qw : ℝ) : Vec3 :=
  let t := Vec3.smul 2 (Vec3.cross qv v)
  Vec3.add (Vec3.add v (Vec3.smul qw t)) (Vec3.cross qv t)

/-- three.js `Vector3.applyAxisAngle(axis, angle)`: apply the quaternion
`(axis·sin(angle/2), cos(angle/2))`. -/
noncomputable def applyAxisAngle (v : Vec3) (axis : Vec3) (angle : ℝ) : Vec3 :=
  applyQuaternion v (Vec3.smul (Real.sin (angle / 2)) axis) (Real.cos (angle / 2))

/-- Squared norm of `applyQuaternion` for an arbitrary quaternion: the
component of `v` along `qv` is rescaled relative to the perpendicular
part unless the quaternion is unit. -/
theorem normSq_applyQuaternion (v qv : Vec3) (qw : ℝ) :
    Vec3.normSq (applyQuaternion v qv qw) =
      Vec3.normSq v * ((1 - 2 * Vec3.normSq qv) ^ 2 + 4 * qw ^ 2 * Vec3.normSq qv) +
        4 * (Vec3.dot qv v) ^ 2 * (1 - Vec3.normSq qv - qw ^ 2) := by
  obtain ⟨vx, vy, vz⟩ := v
  obtain ⟨qx, qy, qz⟩ := qv
  simp only [applyQuaternion, Vec3.add, Vec3.smul, Vec3.cross, Vec3.dot, Vec3.normSq]
  ring

/-- For a **unit** axis, `applyAxisAngle` is a proper rotation and
preserves the squared norm. -/
theorem normSq_applyAxisAngle_unit (v axis : Vec3) (angle : ℝ)
    (h : Vec3.normSq axis = 1) :
    Vec3.normSq (applyAxisAngle v axis angle) = Vec3.normSq v := by
  unfold applyAxisAngle
  rw [normSq_applyQuaternion]
  have hqv : Vec3.normSq (Vec3.smul (Real.sin (angle / 2)) axis) =
      Real.sin (angle / 2) ^ 2 := by
    obtain ⟨ax, ay, az⟩ := axis
    simp only [Vec3.normSq, Vec3.smul] at h ⊢
    nlinarith [h]
  have hpy := Real.sin_sq_add_cos_sq (angle / 2)
  have hc : Real.cos (angle / 2) ^ 2 = 1 - Real.sin (angle / 2) ^ 2 := by linarith
  rw [hqv, hc]
  ring

/-! ## Effect lifecycle engine (`CrystalSphere`)

Instance records carry every field that drives the spawn/update/dispose
logic.  Pure material/geometry parameters (colors, mesh radii, cone
orientation math) belong to the opaque render substrate (spec §6) and are
not tracked.  `Math.random()` draws are passed in explicitly. -/

/-- `EffectState = 'idle' | 'resonance' | 'prism' | 'rift' | 'spikes'`. -/
inductive EffectState where
  | idle
  | resonance
  | prism
  | rift
  | spikes
deriving DecidableEq

/-- A Resonance ring: `userData = { life, delay }` plus the scalar scale
and material opacity driven by `updateResonance`.  `emitResonance`
creates its material with `opacity: 1`. -/
structure RingInst where
  life : ℚ
  delay : ℚ
  scale : ℚ
  opacity : ℝ

/-- A Prism ray: `userData = { life, phase }` plus material opacity. -/
structure RayInst where
  life : ℚ
  phase : ℚ
  opacity : ℚ

/-- One Rift particle: its `userData` (`life`, `velocity`,
`rotationSpeed`) plus its position attribute. -/
structure RiftP where
  life : ℚ
  pos : Vec3
  vel : Vec3
  rotSpeed : ℚ

/-- One Rift emission batch (a single `THREE.Points` entity sharing one
material opacity). -/
structure RiftBatch where
  particles : List RiftP
  opacity : ℚ

/-- A Spike cone: `userData = { life, speed, seed, baseLen }` plus its
position, outward direction, material opacity, and long-axis scale. -/
structure SpikeInst where
  life : ℚ
  speed : ℚ
  seed : ℚ
  baseLen : ℚ
  dir : Vec3
  pos : Vec3
  opacity : ℚ
  scaleY : ℝ

/-- `Math.random()` draws consumed per spike by `createSpikes`. -/
structure SpikeDraw where
  lenRand : ℚ
  dir : Vec3
  speedRand : ℚ
  seed : ℚ

/-- `Math.random()` draws consumed per particle by `emitRift`: the unit
direction obtained from normalizing the random cube vector, plus the raw
uniform scalars. -/
structure RiftDraw where
  lifeRand : ℚ
  dirUnit : Vec3
  speedRand : ℚ
  rotRand : ℚ

/-- The bundle of entropy streams passed to emission helpers. -/
structure Draws where
  spike : ℕ → SpikeDraw
  rift : ℕ → RiftDraw

/-- The `CrystalSphere` state: substrate presence flags (after `init`,
`group`/`particles`/`wireframe` exist and `energyCore` is deliberately
left `null`), theme bookkeeping, the active effect, bloom strength, the
idle rotation angle, and the four effect pools.  `appliedTheme` records
which theme's colors `applyTheme` last painted onto the substrate
(`none` if it never ran). -/
structure CrystalState where
  hasGroup : Bool
  hasParticles : Bool
  hasWireframe : Bool
  hasEnergyCore : Bool
  themeIndex : ℕ
  appliedTheme : Option ℕ
  activeEffect : EffectState
  bloomStrength : ℚ
  rotY : ℚ
  resonance : List RingInst
  prism : List RayInst
  rift : List RiftBatch
  spikes : List SpikeInst

/-- The four fixed themes: Crystal Resonance, Prism Flare, Galactic Rift,
Solar Spikes. -/
def themeCount : ℕ := 4

/-- `CrystalSphere` state right after `init(scene, radius, icoDetail)`:
pools empty, theme 0, idle, bloom 1.2, and **no** energy core. -/
def initCrystal : CrystalState :=
  { hasGroup := true, hasParticles := true, hasWireframe := true,
    hasEnergyCore := false, themeIndex := 0, appliedTheme := Option.none,
    activeEffect := .idle, bloomStrength := 1.2, rotY := 0,
    resonance := [], prism := [], rift := [], spikes := [] }

/-- Embedding of `applyTheme(theme)`: the guard
`if (!particles || !wireframe || !energyCore) return;` skips recoloring
unless all three exist — and `init` leaves `energyCore` null, so in
initialized states the recolor never runs. -/
def applyTheme (c : CrystalState) (idx : ℕ) : CrystalState :=
  if c.hasParticles = true ∧ c.hasWireframe = true ∧ c.hasEnergyCore = true then
    { c with appliedTheme := some idx }
  else c

/-- Embedding of `setThemeByEnergyInstrument`: `let idx = 0` then
`bass → 0`, `guitar → 1`, `drums → 2` (so `'none'` keeps the initial 0);
energy above 0.35 advances the index mod the theme count; the index
assignment and `applyTheme` call run only when the result differs from
the current index. -/
def setThemeByEnergyInstrument (c : CrystalState) (energy : ℚ)
    (instrument : Instrument) : CrystalState :=
  let idx0 : ℕ :=
    if instrument = .bass then 0
    else if instrument = .guitar then 1
    else if instrument = .drums then 2
    else 0
  let idx := if 0.35 < energy then (idx0 + 1) % themeCount else idx0
  if idx ≠ c.themeIndex then applyTheme { c with themeIndex := idx } idx else c

/-- Embedding of `emitResonance`: append `rings` staggered rings with
`life = 1`, `delay = i·0.06`, scale `0.1`, and material opacity **1**. -/
def emitResonance (pool : List RingInst) (rings : ℕ) : List RingInst :=
  pool ++ (List.range rings).map
    (fun i => { life := 1, delay := (i : ℚ) * 0.06, scale := 0.1, opacity := 1 })

/-- Embedding of `emitPrism`: append `rays` rays with `life = 1`,
`phase = 0`, and material opacity 0 (ray orientation is substrate). -/
def emitPrism (pool : List RayInst) (rays : ℕ) : List RayInst :=
  pool ++ (List.range rays).map (fun _ => { life := 1, phase := 0, opacity := 0 })

/-- Embedding of `emitRift`: append **one** batch of `count` particles at
the origin, each with `life = 1.2 + rand·1.2`, velocity = random unit
direction scaled by `rand·3 + 1.5`, `rotationSpeed = (rand − 0.5)·0.04`,
and batch material opacity 1. -/
def emitRift (pool : List RiftBatch) (count : ℕ) (draw : ℕ → RiftDraw) :
    List RiftBatch :=
  pool ++ [{
    particles := (List.range count).map (fun i =>
      { life := 1.2 + (draw i).lifeRand * 1.2,
        pos := ⟨0, 0, 0⟩,
        vel := Vec3.smul ((((draw i).speedRand * 3 + 1.5 : ℚ)) : ℝ) (draw i).dirUnit,
        rotSpeed := ((draw i).rotRand - 0.5) * 0.04 }),
    opacity := 1 }]

/-- Embedding of `createSpikes`: append `count` cones with `life = 1`,
`length = 0.6 + rand·1.1 + high·0.8`, `speed = 0.35 + rand`, a sampled
seed and outward direction, and material opacity 0 (band-tinted color is
substrate). -/
def createSpikes (pool : List SpikeInst) (count : ℕ) (low mid high : ℚ)
    (draw : ℕ → SpikeDraw) : List SpikeInst :=
  pool ++ (List.range count).map (fun i =>
    { life := 1, speed := 0.35 + (draw i).speedRand, seed := (draw i).seed,
      baseLen := 0.6 + (draw i).lenRand * 1.1 + high * 0.8,
      dir := (draw i).dir, pos := ⟨0, 0, 0⟩, opacity := 0, scaleY := 1 })

/-- Per-ring update rule of `updateResonance`: while `delay > 0` only the
delay shrinks (life, scale and opacity untouched); afterwards `life`
drops at `0.6/s`, the scale follows `0.1 + (1 − life)·1.4`, the opacity
follows `max(0, sin(life·π))`, and the ring is disposed at `life ≤ 0`. -/
noncomputable def ringStep (dt : ℚ) (w : RingInst) : Option RingInst :=
  if 0 < w.delay then some { w with delay := w.delay - dt }
  else
    let life := w.life - dt * 0.6
    let p := 1 - life
    if 0 < life then
      some { life := life, delay := w.delay, scale := 0.1 + p * 1.4,
             opacity := max 0 (Real.sin ((life : ℝ) * Real.pi)) }
    else none

/-- Embedding of `updateResonance` (early return on an empty pool; bloom
falls back to 1.2 when the pool drains). -/
noncomputable def updateResonance (c : CrystalState) (dt : ℚ) : CrystalState :=
  if c.resonance.isEmpty then c
  else
    let pool := c.resonance.filterMap (ringStep dt)
    if pool.isEmpty then { c with resonance := pool, bloomStrength := 1.2 }
    else { c with resonance := pool }

/-- Per-ray update rule of `updatePrism`: `phase += dt·3.5`; fade in with
`opacity = phase` while `phase < 1`, else `life −= dt·0.9` and
`opacity = max(0, life)`; disposed at `life ≤ 0`. -/
def rayStep (dt : ℚ) (r : RayInst) : Option RayInst :=
  let phase := r.phase + dt * 3.5
  let lifeOp := if phase < 1 then (r.life, phase)
                else (r.life - dt * 0.9, max 0 (r.life - dt * 0.9))
  if 0 < lifeOp.1 then some { life := lifeOp.1, phase := phase, opacity := lifeOp.2 }
  else none

/-- Embedding of `updatePrism`. -/
def updatePrism (c : CrystalState) (dt : ℚ) : CrystalState :=
  if c.prism.isEmpty then c
  else
    let pool := c.prism.filterMap (rayStep dt)
    if pool.isEmpty then { c with prism := pool, bloomStrength := 1.2 }
    else { c with prism := pool }

/-- Per-particle update of `updateRift`: age by `dt`; while still alive,
advance the position by `velocity·dt` and then apply
`applyAxisAngle(velocity, rotationSpeed)` — the angle is the raw
`rotationSpeed` (not scaled by `dt`) and the axis is the **unnormalized**
velocity. -/
noncomputable def riftParticleStep (dt : ℚ) (pd : RiftP) : RiftP :=
  let life := pd.life - dt
  if 0 < life then
    { pd with
      life := life,
      pos := applyAxisAngle (Vec3.add pd.pos (Vec3.smul ((dt : ℚ) : ℝ) pd.vel))
        pd.vel (((pd.rotSpeed : ℚ)) : ℝ) }
  else { pd with life := life }

/-- Embedding of `updateRift`: only the **first** batch in the pool is
updated; its material opacity decays at `0.4/s` and the whole batch is
removed (bloom falls back to 1.2) once the opacity reaches 0. -/
noncomputable def updateRift (c : CrystalState) (dt : ℚ) : CrystalState :=
  match c.rift with
  | [] => c
  | neb :: rest =>
    let particles := neb.particles.map (riftParticleStep dt)
    let opacity := neb.opacity - dt * 0.4
    if opacity ≤ 0 then { c with rift := rest, bloomStrength := 1.2 }
    else { c with rift := { particles := particles, opacity := opacity } :: rest }

/-- Per-spike update rule of `updateSpikes`: `life −= dt·0.8`; the
position advances along the spike's outward direction at `speed·dt`; the
long axis wobbles at `0.85 + 0.15·sin(time·(1.2 + seed·2))`; the opacity
ramps by `+dt·2`, clamped to `[0, 1]` and to the remaining life; disposed
at `life ≤ 0` (hue cycling is substrate color state). -/
noncomputable def spikeStep (dt time : ℚ) (s : SpikeInst) : Option SpikeInst :=
  let life := s.life - dt * 0.8
  let pos := Vec3.add s.pos (Vec3.smul (((s.speed * dt : ℚ)) : ℝ) s.dir)
  let scaleY : ℝ := 0.85 + Real.sin ((time : ℝ) * (1.2 + (s.seed : ℝ) * 2.0)) * 0.15
  let op1 := min 1 (s.opacity + dt * 2)
  let opacity := max 0 (min 1 (min op1 life))
  if 0 < life then
    some { s with life := life, pos := pos, scaleY := scaleY, opacity := opacity }
  else none

/-- Embedding of `updateSpikes` (bloom falls back to 1.2 only when the
pool drains while spikes is the active effect). -/
noncomputable def updateSpikes (c : CrystalState) (dt time : ℚ) : CrystalState :=
  if c.spikes.isEmpty then c
  else
    let pool := c.spikes.filterMap (spikeStep dt time)
    if pool.isEmpty ∧ c.activeEffect = .spikes then
      { c with spikes := pool, bloomStrength := 1.2 }
    else { c with spikes := pool }

/-- Embedding of `clearAllEffects`: dispose and remove every instance of
every pool (synchronously, without fade) and return to `'idle'`. -/
def clearAllEffects (c : CrystalState) : CrystalState :=
  { c with
    resonance := [], prism := [], rift := [], spikes := [],
    activeEffect := .idle }

/-- Embedding of `triggerEffect`: guard on the group, clear **all** pools,
then emit one fresh batch into the selected kind's pool and set the bloom
strength and active effect (the `'idle'`/default case only clears). -/
def triggerEffect (c : CrystalState) (kind : EffectState) (rnd : Draws) :
    CrystalState :=
  if c.hasGroup = false then c
  else
    let c0 := clearAllEffects c
    match kind with
    | .resonance => { c0 with
        resonance := emitResonance c0.resonance 3,
        bloomStrength := 1.3, activeEffect := .resonance }
    | .prism => { c0 with
        prism := emitPrism c0.prism 120,
        bloomStrength := 1.35, activeEffect := .prism }
    | .rift => { c0 with
        rift := emitRift c0.rift 2000 rnd.rift,
        bloomStrength := 1.6, activeEffect := .rift }
    | .spikes => { c0 with
        spikes := createSpikes c0.spikes 36 0.2 0.2 0.2 rnd.spike,
        bloomStrength := 1.4, activeEffect := .spikes }
    | .idle => c0

/-- Embedding of `triggerSpikesFromAudio`:
`count = ⌊12 + intensity·48⌋` with
`intensity = min(1, 0.5·low + 0.8·mid + 1.0·high)`. -/
def triggerSpikesFromAudio (c : CrystalState) (low mid high : ℚ) (rnd : Draws) :
    CrystalState :=
  let intensity := min 1 (low * 0.5 + mid * 0.8 + high * 1.0)
  let count := (Int.floor (12 + intensity * 48)).toNat
  { c with spikes := createSpikes c.spikes count low mid high rnd.spike }

/-- Embedding of `isAnyEffectActive`. -/
def isAnyEffectActive (c : CrystalState) : Bool :=
  !c.resonance.isEmpty || !c.prism.isEmpty || !c.rift.isEmpty || !c.spikes.isEmpty

/-- Embedding of `setExclusiveEffect`. -/
def setExclusiveEffect (c : CrystalState) (kind : EffectState) (rnd : Draws) :
    CrystalState :=
  if kind = .idle then clearAllEffects c
  else if c.activeEffect = kind ∧ isAnyEffectActive c = true then c
  else triggerEffect c kind rnd

/-- Number of live entities in a kind's pool (`idle` owns no pool). -/
def poolSize (c : CrystalState) : EffectState → ℕ
  | .idle => 0
  | .resonance => c.resonance.length
  | .prism => c.prism.length
  | .rift => c.rift.length
  | .spikes => c.spikes.length

/-! ## Effect selector and hold-time switching (`SceneView`) -/

/-- Embedding of `SceneView.chooseEffect`: the fixed priority ladder with
an energy-based fallback; `null` (here `Option.none`) means "no change". -/
def chooseEffect (low mid high rms : ℚ) (beat : Bool) : Option EffectState :=
  let energy := low * 0.45 + mid * 0.35 + high * 0.2 + rms * 0.3
  if beat = true ∧ 0.55 < high then some .spikes
  else if 0.6 < high ∧ 0.5 < mid then some .prism
  else if 0.55 < mid ∧ low < 0.4 then some .resonance
  else if 0.55 < low then some .rift
  else if 0.5 < energy then some .prism
  else if 0.35 < energy then some .resonance
  else none

/-- The selection ladder exactly as claim C2 words it (combined energy
computed in the fallback step), for comparison with the source's
`chooseEffect`. -/
def chooseEffectSpec (low mid high rms : ℚ) (beat : Bool) : Option EffectState :=
  if beat = true ∧ 0.55 < high then some .spikes
  else if 0.6 < high ∧ 0.5 < mid then some .prism
  else if 0.55 < mid ∧ low < 0.4 then some .resonance
  else if 0.55 < low then some .rift
  else
    let e := 0.45 * low + 0.35 * mid + 0.2 * high + 0.3 * rms
    if 0.5 < e then some .prism
    else if 0.35 < e then some .resonance
    else none

/-- `minHoldSeconds = 3.0` — the selector's hold time. -/
def minHoldSeconds : ℚ := 3

/-- The `SceneView` state driving effect selection: the crystal bundle,
the classifier's current label, the time of the last applied switch, and
the cached feature values. -/
structure SceneState where
  crystal : CrystalState
  currentInstrument : Instrument
  lastEffectSwitchAt : ℚ
  lastRms : ℚ
  lastLow : ℚ
  lastMid : ℚ
  lastHigh : ℚ

/-- `SceneView` state at construction (with the crystal initialized). -/
def initScene : SceneState :=
  ⟨initCrystal, .none, 0, 0, 0, 0, 0⟩

/-- Embedding of `SceneView.updateFromAudio(rms, low, mid, high, beat)`:
cache the features; drive the theme from combined energy and the current
instrument; choose an effect and apply it only if it differs from the
active kind and the 3 s hold has elapsed (recording the switch time);
re-trigger spikes while spikes is active; reinforce the active effect
with music-driven emissions.  `now` is `performance.now()·0.001`,
supplied as an oracle argument. -/
def updateFromAudio (st : SceneState) (rms low mid high : ℚ) (beat : Bool)
    (now : ℚ) (rnd : Draws) : SceneState :=
  let st1 : SceneState := { st with
    lastRms := rms, lastLow := low, lastMid := mid, lastHigh := high }
  let energy := min 1 (low * 0.5 + mid * 0.3 + high * 0.2 + rms * 0.3)
  let c1 := setThemeByEnergyInstrument st1.crystal energy st1.currentInstrument
  let chosen := chooseEffect low mid high st1.lastRms beat
  let canSwitch := minHoldSeconds < now - st1.lastEffectSwitchAt
  let sw :=
    match chosen with
    | some k =>
      if k ≠ c1.activeEffect ∧ canSwitch then (setExclusiveEffect c1 k rnd, now)
      else (c1, st1.lastEffectSwitchAt)
    | none => (c1, st1.lastEffectSwitchAt)
  let c2 := sw.1
  let c3 :=
    if c2.activeEffect = .spikes ∧ (beat = true ∨ 0.5 < high) then
      triggerSpikesFromAudio c2 low mid high rnd
    else c2
  let c4 :=
    if c3.activeEffect = .resonance ∧ (beat = true ∨ 0.55 < mid) then
      { c3 with resonance := emitResonance c3.resonance 2 }
    else if c3.activeEffect = .prism ∧ 0.55 < high then
      { c3 with prism := emitPrism c3.prism 60 }
    else if c3.activeEffect = .rift ∧ 0.55 < low then
      { c3 with rift := emitRift c3.rift 900 rnd.rift }
    else c3
  { st1 with crystal := c4, lastEffectSwitchAt := sw.2 }

/-- One `updateFromAudio` tick's inputs (features, oracle time, draws). -/
structure UFrame where
  rms : ℚ
  low : ℚ
  mid : ℚ
  high : ℚ
  beat : Bool
  now : ℚ
  rnd : Draws

/-- The state transition of one `updateFromAudio` tick. -/
def sceneStep (st : SceneState) (f : UFrame) : SceneState :=
  updateFromAudio st f.rms f.low f.mid f.high f.beat f.now f.rnd

/-- The switch condition of one `updateFromAudio` tick: some kind is
chosen, it differs from the active kind, and more than 3 s have elapsed
since the last applied switch. -/
def sceneSwitchCond (st : SceneState) (f : UFrame) : Prop :=
  ∃ k, chooseEffect f.low f.mid f.high f.rms f.beat = some k ∧
    k ≠ st.crystal.activeEffect ∧
    minHoldSeconds < f.now - st.lastEffectSwitchAt

/-- The applied-switch times of an `updateFromAudio` run. -/
def sceneSwitchTimes (st : SceneState) (fs : List UFrame) : List ℚ :=
  holdSwitchTimes sceneStep (fun s => s.lastEffectSwitchAt) (fun f => f.now) st fs

instance (st : SceneState) (f : UFrame) : Decidable (sceneSwitchCond st f) :=
  match hch : chooseEffect f.low f.mid f.high f.rms f.beat with
  | Option.none => isFalse (by
      rintro ⟨k, hk, -, -⟩
      rw [hch] at hk
      exact Option.noConfusion hk)
  | Option.some k =>
    if h : k ≠ st.crystal.activeEffect ∧ minHoldSeconds < f.now - st.lastEffectSwitchAt then
      isTrue ⟨k, hch, h.1, h.2⟩
    else isFalse (by
      rintro ⟨k2, hk2, h1, h2⟩
      rw [hch] at hk2
      injection hk2 with he
      subst he
      exact h ⟨h1, h2⟩)

theorem applyTheme_activeEffect (c : CrystalState) (idx : ℕ) :
    (applyTheme c idx).activeEffect = c.activeEffect := by
  unfold applyTheme
  split_ifs <;> rfl

theorem setTheme_frame_aux (c : CrystalState) (idx : ℕ) :
    (if idx ≠ c.themeIndex then applyTheme { c with themeIndex := idx } idx
     else c).activeEffect = c.activeEffect ∧
    (if idx ≠ c.themeIndex then applyTheme { c with themeIndex := idx } idx
     else c).hasGroup = c.hasGroup ∧
    (if idx ≠ c.themeIndex then applyTheme { c with themeIndex := idx } idx
     else c).resonance = c.resonance ∧
    (if idx ≠ c.themeIndex then applyTheme { c with themeIndex := idx } idx
     else c).prism = c.prism ∧
    (if idx ≠ c.themeIndex then applyTheme { c with themeIndex := idx } idx
     else c).rift = c.rift ∧
    (if idx ≠ c.themeIndex then applyTheme { c with themeIndex := idx } idx
     else c).spikes = c.spikes := by
  by_cases h : idx ≠ c.themeIndex
  · rw [if_pos h]
    unfold applyTheme
    by_cases h2 : ({ c with themeIndex := idx } : CrystalState).hasParticles = true ∧
        ({ c with themeIndex := idx } : CrystalState).hasWireframe = true ∧
        ({ c with themeIndex := idx } : CrystalState).hasEnergyCore = true
    · rw [if_pos h2]
      exact ⟨rfl, rfl, rfl, rfl, rfl, rfl⟩
    · rw [if_neg h2]
      exact ⟨rfl, rfl, rfl, rfl, rfl, rfl⟩
  · rw [if_neg h]
    exact ⟨rfl, rfl, rfl, rfl, rfl, rfl⟩

theorem setTheme_crystal_frame (c : CrystalState) (energy : ℚ) (i : Instrument) :
    (setThemeByEnergyInstrument c energy i).activeEffect = c.activeEffect ∧
    (setThemeByEnergyInstrument c energy i).hasGroup = c.hasGroup ∧
    (setThemeByEnergyInstrument c energy i).resonance = c.resonance ∧
    (setThemeByEnergyInstrument c energy i).prism = c.prism ∧
    (setThemeByEnergyInstrument c energy i).rift = c.rift ∧
    (setThemeByEnergyInstrument c energy i).spikes = c.spikes := by
  unfold setThemeByEnergyInstrument
  exact setTheme_frame_aux c _

theorem trigger_active_of_ne (c : CrystalState) (k : EffectState) (rnd : Draws)
    (hg : c.hasGroup = true) (hk : k ≠ .idle) :
    (triggerEffect c k rnd).activeEffect = k := by
  unfold triggerEffect
  rw [if_neg (by rw [hg]; simp)]
  cases k <;> first | exact absurd rfl hk | rfl

theorem setExclusive_active (c : CrystalState) (k : EffectState) (rnd : Draws)
    (hg : c.hasGroup = true) (hk : k ≠ .idle) (hne : k ≠ c.activeEffect) :
    (setExclusiveEffect c k rnd).activeEffect = k := by
  unfold setExclusiveEffect
  rw [if_neg hk]
  rw [if_neg (by rintro ⟨h1, -⟩; exact hne h1.symm)]
  exact trigger_active_of_ne c k rnd hg hk

theorem chooseEffect_ne_idle (low mid high rms : ℚ) (beat : Bool) :
    chooseEffect low mid high rms beat ≠ some .idle := by
  simp only [chooseEffect]
  split_ifs <;> decide

/-- `sceneStep` leaves the active effect unchanged after the selection
block: the spike re-trigger and the reinforcement emissions never touch
`activeEffect`. -/
theorem sceneStep_characterization (st : SceneState) (f : UFrame) :
    (sceneStep st f).lastEffectSwitchAt =
      (if sceneSwitchCond st f then f.now else st.lastEffectSwitchAt) ∧
    (st.crystal.hasGroup = true →
      ((sceneStep st f).crystal.activeEffect ≠ st.crystal.activeEffect ↔
        sceneSwitchCond st f)) := by
  have hframe := setTheme_crystal_frame st.crystal
    (min 1 (f.low * 0.5 + f.mid * 0.3 + f.high * 0.2 + f.rms * 0.3)) st.currentInstrument
  set c1 := setThemeByEnergyInstrument st.crystal
    (min 1 (f.low * 0.5 + f.mid * 0.3 + f.high * 0.2 + f.rms * 0.3)) st.currentInstrument with hc1
  have hactive1 : c1.activeEffect = st.crystal.activeEffect := hframe.1
  have hgroup1 : c1.hasGroup = st.crystal.hasGroup := hframe.2.1
  -- the post-selection stages preserve the active effect
  have hpost : ∀ c : CrystalState,
      (let c3 :=
        if c.activeEffect = .spikes ∧ (f.beat = true ∨ 0.5 < f.high) then
          triggerSpikesFromAudio c f.low f.mid f.high f.rnd
        else c
       let c4 :=
        if c3.activeEffect = .resonance ∧ (f.beat = true ∨ 0.55 < f.mid) then
          { c3 with resonance := emitResonance c3.resonance 2 }
        else if c3.activeEffect = .prism ∧ 0.55 < f.high then
          { c3 with prism := emitPrism c3.prism 60 }
        else if c3.activeEffect = .rift ∧ 0.55 < f.low then
          { c3 with rift := emitRift c3.rift 900 f.rnd.rift }
        else c3
       c4).activeEffect = c.activeEffect := by
    intro c
    dsimp only
    split_ifs <;> simp [triggerSpikesFromAudio]
  cases hch : chooseEffect f.low f.mid f.high f.rms f.beat with
  | none =>
    have hnc : ¬ sceneSwitchCond st f := by
      rintro ⟨k, hk, -, -⟩
      rw [hch] at hk
      exact Option.noConfusion hk
    constructor
    · rw [if_neg hnc]
      simp only [sceneStep, updateFromAudio, hch]
    · intro _
      refine iff_of_false ?_ hnc
      simp only [sceneStep, updateFromAudio, hch]
      rw [not_not]
      exact (hpost c1).trans hactive1
  | some k =>
    by_cases hcond : k ≠ c1.activeEffect ∧ minHoldSeconds < f.now - st.lastEffectSwitchAt
    · have hsc : sceneSwitchCond st f :=
        ⟨k, hch, by rw [← hactive1]; exact hcond.1, hcond.2⟩
      constructor
      · rw [if_pos hsc]
        simp only [sceneStep, updateFromAudio, hch]
        rw [if_pos hcond]
      · intro hg
        refine iff_of_true ?_ hsc
        have hk0 : k ≠ .idle := by
          intro h
          rw [h] at hch
          exact chooseEffect_ne_idle f.low f.mid f.high f.rms f.beat hch
        have : (sceneStep st f).crystal.activeEffect = k := by
          simp only [sceneStep, updateFromAudio, hch]
          rw [if_pos hcond]
          refine ((hpost _).trans ?_)
          exact setExclusive_active c1 k f.rnd (by rw [hgroup1]; exact hg) hk0 hcond.1
        rw [this]
        rw [← hactive1]
        exact hcond.1
    · have hnc : ¬ sceneSwitchCond st f := by
        rintro ⟨k2, hk2, hne2, hcan2⟩
        rw [hch] at hk2
        injection hk2 with hk2
        subst hk2
        exact hcond ⟨by rw [hactive1]; exact hne2, hcan2⟩
      constructor
      · rw [if_neg hnc]
        simp only [sceneStep, updateFromAudio, hch]
        rw [if_neg hcond]
      · intro _
        refine iff_of_false ?_ hnc
        simp only [sceneStep, updateFromAudio, hch]
        rw [if_neg hcond, not_not]
        exact (hpost c1).trans hactive1

/-! ## Claim theorems for the selector and lifecycle engine -/

/-- **C2.**  `chooseEffect` is exactly the claimed priority ladder
(first match wins, combined energy fallback `0.45·low + 0.35·mid +
0.2·high + 0.3·rms` with Prism above 0.5 and Resonance above 0.35), it
never forces Idle, and a `none` result leaves the active kind of the
scene untouched. -/
theorem c2_chooseEffect_ladder :
    (∀ (low mid high rms : ℚ) (beat : Bool),
      chooseEffect low mid high rms beat = chooseEffectSpec low mid high rms beat ∧
      chooseEffect low mid high rms beat ≠ some .idle) ∧
    (∀ (st : SceneState) (rms low mid high : ℚ) (beat : Bool) (now : ℚ) (rnd : Draws),
      chooseEffect low mid high rms beat = Option.none →
      (updateFromAudio st rms low mid high beat now rnd).crystal.activeEffect =
        st.crystal.activeEffect) := by
  constructor
  · intro low mid high rms beat
    constructor
    · simp only [chooseEffect, chooseEffectSpec]
      split_ifs <;> first | rfl | (exfalso; linarith)
    · simp only [chooseEffect]
      split_ifs <;> decide
  · intro st rms low mid high beat now rnd hch
    have hpost : ∀ c : CrystalState,
        (let c3 :=
          if c.activeEffect = .spikes ∧ (beat = true ∨ 0.5 < high) then
            triggerSpikesFromAudio c low mid high rnd
          else c
         let c4 :=
          if c3.activeEffect = .resonance ∧ (beat = true ∨ 0.55 < mid) then
            { c3 with resonance := emitResonance c3.resonance 2 }
          else if c3.activeEffect = .prism ∧ 0.55 < high then
            { c3 with prism := emitPrism c3.prism 60 }
          else if c3.activeEffect = .rift ∧ 0.55 < low then
            { c3 with rift := emitRift c3.rift 900 rnd.rift }
          else c3
         c4).activeEffect = c.activeEffect := by
      intro c
      dsimp only
      split_ifs <;> simp [triggerSpikesFromAudio]
    simp only [updateFromAudio, hch]
    exact (hpost _).trans
      (setTheme_crystal_frame st.crystal
        (min 1 (low * 0.5 + mid * 0.3 + high * 0.2 + rms * 0.3)) st.currentInstrument).1

/-- **C4.**  Per tick, a newly chosen kind is applied only if it differs
from the active kind and **more than** 3 s have elapsed since the last
applied switch; the switch timestamp moves exactly when a switch is
applied; consequently the applied-switch times of any run are pairwise
more than 3 s apart — the active kind switches at most once in any
3-second window. -/
theorem c4_effect_switch_hold (st0 : SceneState) (fs : List UFrame) :
    List.Pairwise (fun a b => 3 < b - a) (sceneSwitchTimes st0 fs) ∧
    (∀ (st : SceneState) (f : UFrame),
      (sceneStep st f).lastEffectSwitchAt =
        (if sceneSwitchCond st f then f.now else st.lastEffectSwitchAt) ∧
      (st.crystal.hasGroup = true →
        ((sceneStep st f).crystal.activeEffect ≠ st.crystal.activeEffect ↔
          sceneSwitchCond st f))) := by
  constructor
  · refine holdSwitchTimes_pairwise sceneStep (fun s => s.lastEffectSwitchAt)
      (fun f => f.now) (fun a b => 3 < b - a) (fun _ => True) ?_ ?_ ?_ fs st0 trivial
    · intro a b c hab hbc
      linarith
    · intro s i _
      trivial
    · intro s i _ hne
      have h1 := (sceneStep_characterization s i).1
      dsimp only at hne ⊢
      by_cases hc : sceneSwitchCond s i
      · rcases hc with ⟨k, hk, hkne, hcan⟩
        have hc' : sceneSwitchCond s i := ⟨k, hk, hkne, hcan⟩
        rw [h1, if_pos hc']
        refine ⟨rfl, ?_⟩
        have : minHoldSeconds = 3 := rfl
        rw [this] at hcan
        linarith
      · rw [h1, if_neg hc] at hne
        exact absurd rfl hne
  · intro st f
    exact sceneStep_characterization st f

/-- **C5.**  Triggering a non-Idle kind first clears all four pools and
then emits only into the selected kind's pool: immediately afterwards
every other pool is empty, the selected pool is non-empty, and the
selected kind is active. -/
theorem c5_trigger_exclusive (c : CrystalState) (kind : EffectState) (rnd : Draws)
    (hk : kind ≠ .idle) (hg : c.hasGroup = true) :
    (∀ other : EffectState, other ≠ kind → poolSize (triggerEffect c kind rnd) other = 0) ∧
    poolSize (triggerEffect c kind rnd) kind ≠ 0 ∧
    (triggerEffect c kind rnd).activeEffect = kind := by
  cases kind with
  | idle => exact absurd rfl hk
  | resonance =>
    refine ⟨?_, ?_, ?_⟩
    · intro other ho
      cases other <;>
        simp_all [triggerEffect, clearAllEffects, poolSize, emitResonance]
    · simp [triggerEffect, hg, clearAllEffects, poolSize, emitResonance]
    · simp [triggerEffect, hg, clearAllEffects]
  | prism =>
    refine ⟨?_, ?_, ?_⟩
    · intro other ho
      cases other <;>
        simp_all [triggerEffect, clearAllEffects, poolSize, emitPrism]
    · simp [triggerEffect, hg, clearAllEffects, poolSize, emitPrism]
    · simp [triggerEffect, hg, clearAllEffects]
  | rift =>
    refine ⟨?_, ?_, ?_⟩
    · intro other ho
      cases other <;>
        simp_all [triggerEffect, clearAllEffects, poolSize, emitRift]
    · simp [triggerEffect, hg, clearAllEffects, poolSize, emitRift]
    · simp [triggerEffect, hg, clearAllEffects]
  | spikes =>
    refine ⟨?_, ?_, ?_⟩
    · intro other ho
      cases other <;>
        simp_all [triggerEffect, clearAllEffects, poolSize, createSpikes]
    · simp [triggerEffect, hg, clearAllEffects, poolSize, createSpikes]
    · simp [triggerEffect, hg, clearAllEffects]

/-- A fixed entropy bundle for concrete witnesses. -/
def zeroDraws : Draws :=
  ⟨fun _ => ⟨0, ⟨0, 0, 0⟩, 0, 0⟩, fun _ => ⟨0, ⟨0, 0, 0⟩, 0, 0⟩⟩

/-- Witness for `c5_trigger_exclusive` at the initialized crystal. -/
theorem c5_trigger_exclusive_witness :
    (EffectState.resonance ≠ EffectState.idle ∧ initCrystal.hasGroup = true) ∧
    ((∀ other : EffectState, other ≠ .resonance →
        poolSize (triggerEffect initCrystal .resonance zeroDraws) other = 0) ∧
      poolSize (triggerEffect initCrystal .resonance zeroDraws) .resonance ≠ 0 ∧
      (triggerEffect initCrystal .resonance zeroDraws).activeEffect = .resonance) :=
  ⟨⟨by decide, rfl⟩,
    c5_trigger_exclusive initCrystal .resonance zeroDraws (by decide) rfl⟩

/-- The instrument-to-base-index map the code actually implements:
`let idx = 0` followed by the bass/guitar/drums chain, so `'none'` falls
through to 0 (the claim instead asserts "current index is kept"). -/
def instrumentThemeBase : Instrument → ℕ
  | .bass => 0
  | .guitar => 1
  | .drums => 2
  | .none => 0

/-- **C7, counterexample.**  With the current theme index 2, instrument
`'none'` and low energy, the claim predicts the index stays 2 ("for
None/unspecified the current index is kept"); the code resets the base
index to 0 and switches the theme. -/
theorem c7_counterexample :
    (setThemeByEnergyInstrument { initCrystal with themeIndex := 2 } 0
      Instrument.none).themeIndex = 0 ∧ (0 : ℕ) ≠ 2 := by
  constructor
  · norm_num [setThemeByEnergyInstrument, applyTheme, initCrystal, themeCount]
    split_ifs <;> simp_all
  · decide

/-- **C7, amended.**  The base index is `Bass → 0`, `Guitar → 1`,
`Drums → 2`, and `None`/unspecified also maps to **0** (not the current
index); energy above 0.35 advances the index by one mod the theme count;
the state changes (index assignment plus the `applyTheme` recolor
attempt) only when the resulting index differs from the current one. -/
theorem c7_theme_selection (c : CrystalState) (energy : ℚ) (instrument : Instrument) :
    (setThemeByEnergyInstrument c energy instrument).themeIndex =
      (if 0.35 < energy then (instrumentThemeBase instrument + 1) % themeCount
       else instrumentThemeBase instrument) ∧
    ((if 0.35 < energy then (instrumentThemeBase instrument + 1) % themeCount
       else instrumentThemeBase instrument) = c.themeIndex →
      setThemeByEnergyInstrument c energy instrument = c) ∧
    ((setThemeByEnergyInstrument c energy instrument).appliedTheme ≠ c.appliedTheme →
      (if 0.35 < energy then (instrumentThemeBase instrument + 1) % themeCount
       else instrumentThemeBase instrument) ≠ c.themeIndex) := by
  have hbase : (if instrument = Instrument.bass then (0 : ℕ)
      else if instrument = Instrument.guitar then 1
      else if instrument = Instrument.drums then 2
      else 0) = instrumentThemeBase instrument := by
    cases instrument <;> rfl
  simp only [setThemeByEnergyInstrument]
  rw [hbase]
  by_cases h : (if 0.35 < energy then (instrumentThemeBase instrument + 1) % themeCount
      else instrumentThemeBase instrument) ≠ c.themeIndex
  · rw [if_pos h]
    refine ⟨?_, ?_, ?_⟩
    · unfold applyTheme
      split_ifs <;> rfl
    · intro he
      exact absurd he h
    · intro _
      exact h
  · rw [if_neg h]
    rw [not_not] at h
    exact ⟨h.symm, fun _ => rfl, fun hap => absurd rfl hap⟩

/-- With a non-empty pool, `updateResonance` replaces the pool by the
per-ring filterMap of `ringStep` (whether or not it drains). -/
theorem updateResonance_pool (c : CrystalState) (dt : ℚ) (hne : c.resonance ≠ []) :
    (updateResonance c dt).resonance = c.resonance.filterMap (ringStep dt) := by
  simp only [updateResonance]
  rw [if_neg (by simpa [List.isEmpty_iff] using hne)]
  split_ifs <;> rfl

/-- **C8, counterexample.**  Emit the staggered rings and run one update
with `dt = 0.03`: ring 1 has `delay = 0.06`, its elapsed time (0.03) has
not yet reached its delay, yet its opacity is **1** (the material is
created with `opacity: 1` and the delay branch never touches it) — not 0
as the claim's "invisible (opacity 0)" asserts. -/
theorem c8_counterexample :
    ((updateResonance { initCrystal with resonance := emitResonance [] 3 }
        (3/100)).resonance.getD 1 ⟨0, 0, 0, 0⟩).opacity = 1 ∧
    ((emitResonance [] 3).getD 1 ⟨0, 0, 0, 0⟩).delay = 6/100 ∧
    (3/100 : ℚ) < 6/100 ∧ (1 : ℝ) ≠ 0 := by
  have hemit : emitResonance [] 3 =
      [⟨1, 0, 1/10, 1⟩, ⟨1, 6/100, 1/10, 1⟩, ⟨1, 12/100, 1/10, 1⟩] := by
    norm_num [emitResonance, List.range_succ]
  have hr0 : ringStep (3/100) (⟨1, 0, 1/10, 1⟩ : RingInst) =
      some ⟨1 - 3/100 * 0.6, 0, 0.1 + (1 - (1 - 3/100 * 0.6)) * 1.4,
        max 0 (Real.sin (((1 - 3/100 * 0.6 : ℚ) : ℝ) * Real.pi))⟩ := by
    simp only [ringStep]
    rw [if_neg (by norm_num), if_pos (by norm_num)]
  have hr1 : ringStep (3/100) (⟨1, 6/100, 1/10, 1⟩ : RingInst) =
      some ⟨1, 6/100 - 3/100, 1/10, 1⟩ := by
    simp only [ringStep]
    rw [if_pos (by norm_num)]
  have hr2 : ringStep (3/100) (⟨1, 12/100, 1/10, 1⟩ : RingInst) =
      some ⟨1, 12/100 - 3/100, 1/10, 1⟩ := by
    simp only [ringStep]
    rw [if_pos (by norm_num)]
  have hmap : List.filterMap (ringStep (3/100))
      [(⟨1, 0, 1/10, 1⟩ : RingInst), ⟨1, 6/100, 1/10, 1⟩, ⟨1, 12/100, 1/10, 1⟩] =
      [⟨1 - 3/100 * 0.6, 0, 0.1 + (1 - (1 - 3/100 * 0.6)) * 1.4,
        max 0 (Real.sin (((1 - 3/100 * 0.6 : ℚ) : ℝ) * Real.pi))⟩,
       ⟨1, 6/100 - 3/100, 1/10, 1⟩, ⟨1, 12/100 - 3/100, 1/10, 1⟩] := by
    simp only [List.filterMap_cons, List.filterMap_nil, hr0, hr1, hr2]
  have hpool : (updateResonance { initCrystal with resonance := emitResonance [] 3 }
      (3/100)).resonance =
      [⟨1 - 3/100 * 0.6, 0, 0.1 + (1 - (1 - 3/100 * 0.6)) * 1.4,
        max 0 (Real.sin (((1 - 3/100 * 0.6 : ℚ) : ℝ) * Real.pi))⟩,
       ⟨1, 6/100 - 3/100, 1/10, 1⟩, ⟨1, 12/100 - 3/100, 1/10, 1⟩] := by
    have h1 := updateResonance_pool { initCrystal with resonance := emitResonance [] 3 }
      (3/100) (by rw [show ({ initCrystal with resonance := emitResonance [] 3 } :
        CrystalState).resonance = emitResonance [] 3 from rfl, hemit]; simp)
    rw [h1, show ({ initCrystal with resonance := emitResonance [] 3 } :
      CrystalState).resonance = emitResonance [] 3 from rfl, hemit, hmap]
  refine ⟨?_, ?_, by norm_num, by norm_num⟩
  · rw [hpool]
    rfl
  · rw [hemit]
    rfl

/-- **C8, amended.**  `emitResonance` creates rings with `life = 1`,
`delay = i·0.06`, scale 0.1 and material **opacity 1** (visible while
delayed); on each update a still-delayed ring only has its delay reduced
(life, scale, opacity untouched — it keeps its initial opacity 1 rather
than being invisible); once the delay is spent, life decreases at
`0.6/s`, the scale follows `0.1 + (1 − life)·1.4`, the opacity follows
`max(0, sin(life·π))`, and the ring is disposed at `life ≤ 0`. -/
theorem c8_resonance_lifecycle :
    (∀ n : ℕ, emitResonance [] n =
      (List.range n).map (fun i => ⟨1, (i : ℚ) * 0.06, 0.1, 1⟩)) ∧
    (∀ (w : RingInst) (dt : ℚ), 0 < w.delay →
      ringStep dt w = some { w with delay := w.delay - dt }) ∧
    (∀ (w : RingInst) (dt : ℚ), ¬ 0 < w.delay → 0 < w.life - dt * 0.6 →
      ringStep dt w = some ⟨w.life - dt * 0.6, w.delay,
        0.1 + (1 - (w.life - dt * 0.6)) * 1.4,
        max 0 (Real.sin (((w.life - dt * 0.6 : ℚ) : ℝ) * Real.pi))⟩) ∧
    (∀ (w : RingInst) (dt : ℚ), ¬ 0 < w.delay → w.life - dt * 0.6 ≤ 0 →
      ringStep dt w = Option.none) ∧
    (∀ (c : CrystalState) (dt : ℚ), c.resonance ≠ [] →
      (updateResonance c dt).resonance = c.resonance.filterMap (ringStep dt)) := by
  refine ⟨?_, ?_, ?_, ?_, ?_⟩
  · intro n
    simp [emitResonance]
  · intro w dt h
    simp only [ringStep]
    rw [if_pos h]
  · intro w dt h h2
    simp only [ringStep]
    rw [if_neg h, if_pos h2]
  · intro w dt h h2
    simp only [ringStep]
    rw [if_neg h, if_neg (not_lt.mpr h2)]
  · exact updateResonance_pool

/-- **C9, amended.**  On a Rift update with delta `dt`, each still-alive
particle **of the pool's first batch** is advanced by `velocity·dt` and
then transformed by three.js `applyAxisAngle(velocity, rotationSpeed)`:
the angle is the raw per-tick `rotationSpeed` (not `rotationSpeed·dt`),
and the axis is the unnormalized velocity, so the transform preserves the
position's length only when the velocity is a unit vector. -/
theorem c9_rift_swirl (dt : ℚ) (pd : RiftP) (hlife : 0 < pd.life - dt) :
    (riftParticleStep dt pd).pos =
      applyAxisAngle (Vec3.add pd.pos (Vec3.smul ((dt : ℚ) : ℝ) pd.vel)) pd.vel
        (((pd.rotSpeed : ℚ)) : ℝ) ∧
    (riftParticleStep dt pd).life = pd.life - dt ∧
    (Vec3.normSq pd.vel = 1 →
      Vec3.normSq (riftParticleStep dt pd).pos =
        Vec3.normSq (Vec3.add pd.pos (Vec3.smul ((dt : ℚ) : ℝ) pd.vel))) ∧
    (∀ (c : CrystalState) (neb : RiftBatch) (rest : List RiftBatch),
      c.rift = neb :: rest → ¬ neb.opacity - dt * 0.4 ≤ 0 →
      (updateRift c dt).rift =
        { particles := neb.particles.map (riftParticleStep dt),
          opacity := neb.opacity - dt * 0.4 } :: rest) := by
  have hstep : riftParticleStep dt pd =
      { pd with
        life := pd.life - dt,
        pos := applyAxisAngle (Vec3.add pd.pos (Vec3.smul ((dt : ℚ) : ℝ) pd.vel))
          pd.vel (((pd.rotSpeed : ℚ)) : ℝ) } := by
    simp only [riftParticleStep]
    rw [if_pos hlife]
  refine ⟨by rw [hstep], by rw [hstep], ?_, ?_⟩
  · intro hunit
    rw [hstep]
    exact normSq_applyAxisAngle_unit _ pd.vel _ hunit
  · intro c neb rest hr hop
    simp only [updateRift, hr]
    rw [if_neg hop]

/-- Witness for `c9_rift_swirl` at a concrete particle. -/
theorem c9_rift_swirl_witness :
    ((0 : ℚ) < (1 : ℚ) - 1/2) ∧
    ((riftParticleStep (1/2) ⟨1, ⟨0, 0, 0⟩, ⟨1, 0, 0⟩, 0⟩).pos =
      applyAxisAngle (Vec3.add (⟨0, 0, 0⟩ : Vec3)
        (Vec3.smul (((1/2 : ℚ)) : ℝ) ⟨1, 0, 0⟩)) ⟨1, 0, 0⟩ (((0 : ℚ)) : ℝ) ∧
    (riftParticleStep (1/2) ⟨1, ⟨0, 0, 0⟩, ⟨1, 0, 0⟩, 0⟩).life = 1 - 1/2 ∧
    (Vec3.normSq (⟨1, 0, 0⟩ : Vec3) = 1 →
      Vec3.normSq (riftParticleStep (1/2) ⟨1, ⟨0, 0, 0⟩, ⟨1, 0, 0⟩, 0⟩).pos =
        Vec3.normSq (Vec3.add (⟨0, 0, 0⟩ : Vec3)
          (Vec3.smul (((1/2 : ℚ)) : ℝ) ⟨1, 0, 0⟩))) ∧
    (∀ (c : CrystalState) (neb : RiftBatch) (rest : List RiftBatch),
      c.rift = neb :: rest → ¬ neb.opacity - (1/2) * 0.4 ≤ 0 →
      (updateRift c (1/2)).rift =
        { particles := neb.particles.map (riftParticleStep (1/2)),
          opacity := neb.opacity - (1/2) * 0.4 } :: rest)) :=
  ⟨by norm_num, c9_rift_swirl (1/2) ⟨1, ⟨0, 0, 0⟩, ⟨1, 0, 0⟩, 0⟩ (by norm_num)⟩

/-- The concrete Rift particle of the C9 counterexample: alive, off-axis
position, velocity of length 2 (within the emission's 1.5–4.5 speed
range), rotation speed 0.01 (within the emission's ±0.02 range). -/
def c9Particle : RiftP := ⟨2, ⟨0, 1, 0⟩, ⟨2, 0, 0⟩, 1/100⟩

/-- The crystal state owning one Rift batch with that particle. -/
def c9Crystal : CrystalState :=
  { initCrystal with activeEffect := .rift, rift := [⟨[c9Particle], 1⟩] }

/-- **C9, counterexample.**  After one `updateRift` step with
`dt = 1/60`, the particle's position does **not** have the length the
claim predicts (`‖pos + velocity·dt‖`, since a rotation about the
velocity axis would preserve length): the velocity has length 2 and
three.js `applyAxisAngle` with an unnormalized axis applies a non-unit
quaternion, which strictly stretches the component perpendicular to the
axis. -/
theorem c9_counterexample :
    Vec3.normSq ((((updateRift c9Crystal (1/60)).rift.getD 0 ⟨[], 0⟩).particles.getD 0
        ⟨0, ⟨0, 0, 0⟩, ⟨0, 0, 0⟩, 0⟩).pos) ≠
      Vec3.normSq (Vec3.add (⟨0, 1, 0⟩ : Vec3)
        (Vec3.smul (((1/60 : ℚ)) : ℝ) ⟨2, 0, 0⟩)) := by
  have hbatch : (updateRift c9Crystal (1/60)).rift =
      [⟨[riftParticleStep (1/60) c9Particle], (1 : ℚ) - (1/60) * 0.4⟩] := by
    have h0 : c9Crystal.rift = [⟨[c9Particle], 1⟩] := rfl
    simp only [updateRift, h0]
    rw [if_neg (by norm_num)]
    rfl
  have hstep : riftParticleStep (1/60) c9Particle =
      { c9Particle with
        life := c9Particle.life - 1/60,
        pos := applyAxisAngle (Vec3.add c9Particle.pos
            (Vec3.smul (((1/60 : ℚ)) : ℝ) c9Particle.vel)) c9Particle.vel
          (((c9Particle.rotSpeed : ℚ)) : ℝ) } := by
    simp only [riftParticleStep]
    rw [if_pos (by norm_num [c9Particle])]
  rw [hbatch]
  simp only [List.getD, List.get?, Option.getD]
  rw [hstep]
  have harg : (((c9Particle.rotSpeed : ℚ)) : ℝ) / 2 = 1/200 := by
    norm_num [c9Particle]
  have hσ : 0 < Real.sin ((((c9Particle.rotSpeed : ℚ)) : ℝ) / 2) := by
    rw [harg]
    apply Real.sin_pos_of_pos_of_lt_pi
    · norm_num
    · nlinarith [Real.pi_gt_three]
  have hsc := Real.sin_sq_add_cos_sq ((((c9Particle.rotSpeed : ℚ)) : ℝ) / 2)
  refine ne_of_gt ?_
  rw [applyAxisAngle, normSq_applyQuaternion]
  set σ := Real.sin ((((c9Particle.rotSpeed : ℚ)) : ℝ) / 2) with hσdef
  set γ := Real.cos ((((c9Particle.rotSpeed : ℚ)) : ℝ) / 2) with hγdef
  have hγsq : γ ^ 2 = 1 - σ ^ 2 := by linarith
  have hσ4 : 0 < σ ^ 4 := by positivity
  simp only [c9Particle, Vec3.add, Vec3.smul, Vec3.dot, Vec3.normSq]
  push_cast
  nlinarith [hσ4, hγsq, sq_nonneg σ, sq_nonneg γ]

end MusicViz
